import Mathlib

/-!
Verification development for the ESP32_AnimatedGIF decoder
(src/ESP32_AnimatedGIF.h, src/ESP32_AnimatedGIF.cpp).

The decoder's `Impl` class is shallowly embedded here: byte buffers become
`List Nat` (each element one byte), the mutable `Impl` object becomes an
explicit `GifState` record threaded through the operations, machine-integer
truncation is modelled with explicit `% 2 ^ w`, and every fallible C routine
returns its error code together with the updated state.  External effects that
no claim touches are omitted: the frame/pixel callbacks, the blocking
`delay()` call, and the PSRAM-vs-heap allocation strategy (allocation is
modelled as succeeding for every nonzero size, and returning no buffer for
size zero, exactly as `ESP32_GIF_Utils::allocateMemory`).  The pull-reader
callback of `load` is modelled by its canonical instance, a bounds-checked
in-memory byte source, which has the same read semantics as the `_data` path
of `readData`.
-/

namespace EGif

/-- Error codes, mirroring `enum class GIFError` in ESP32_AnimatedGIF.h. -/
inductive GIFError where
  | SUCCESS
  | DECODE_ERROR
  | FILE_TOO_WIDE
  | INVALID_PARAMETER
  | UNSUPPORTED_FEATURE
  | FILE_NOT_FOUND
  | EARLY_EOF
  | EMPTY_FRAME
  | BAD_FILE_FORMAT
  | OUT_OF_MEMORY
  | DISPLAY_NOT_SET
  | UNKNOWN_ERROR
deriving DecidableEq

/-- Output pixel formats, mirroring `enum class PixelFormat`. -/
inductive PixelFormat where
  | RGB565_LE
  | RGB565_BE
  | RGB888
  | ARGB8888
  | GRAYSCALE_8BIT
  | MONOCHROME_1BIT
deriving DecidableEq

/-- Model of `ESP32_GIF_Utils::rgb888To565`: `((r & 0xF8) << 8) | ((g & 0xFC) << 3) | (b >> 3)`,
truncated to the `uint16_t` return type. -/
def rgb888To565 (r g b : Nat) : Nat :=
  (((r &&& 0xF8) <<< 8) ||| ((g &&& 0xFC) <<< 3) ||| (b >>> 3)) % 2 ^ 16

/-- Model of `ESP32_GIF_Utils::rgb888ToGrayscale`: `(uint8_t)((r * 77 + g * 150 + b * 29) >> 8)`.
The cast to `uint8_t` is the final `% 2 ^ 8`. -/
def rgb888ToGrayscale (r g b : Nat) : Nat :=
  ((r * 77 + g * 150 + b * 29) >>> 8) % 2 ^ 8

/-- The mutable state of `ESP32_AnimatedGIF::Impl`.  Pointer fields that can be
null are `Option`; `reader` is the byte source backing the pull-reader callback
(`none` when no reader was registered).  Omitted fields (`_loopCount`, `_scale`,
`_displayWidth/Height`, the callbacks, `_usePSRAM`, `_decoding`, `_readerData`)
are not read by any operation a claim mentions. -/
structure GifState where
  data : Option (List Nat)
  dataLength : Nat
  dataPosition : Nat
  reader : Option (List Nat)
  canvasWidth : Nat
  canvasHeight : Nat
  currentFrame : Nat
  totalFrames : Nat
  loop : Bool
  pixelFormat : PixelFormat
  lastError : GIFError
  frameX : Nat
  frameY : Nat
  frameWidth : Nat
  frameHeight : Nat
  frameDelay : Nat
  disposalMethod : Nat
  imageFlags : Nat
  hasTransparency : Bool
  transparentIndex : Nat
  backgroundColor : Nat
  globalColorTable : Option (List Nat)
  localColorTable : Option (List Nat)
  globalColorTableSize : Nat
  localColorTableSize : Nat
  frameBuffer : Option (List Nat)
  previousFrame : Option (List Nat)
  totalDuration : Nat
deriving DecidableEq

/-- State of a freshly constructed decoder after `begin` (the constructor's
initializer list followed by `resetState`), with the default
`PixelFormat::RGB565_LE` and `_loop = true`. -/
def initState : GifState where
  data := none
  dataLength := 0
  dataPosition := 0
  reader := none
  canvasWidth := 0
  canvasHeight := 0
  currentFrame := 0
  totalFrames := 0
  loop := true
  pixelFormat := .RGB565_LE
  lastError := .SUCCESS
  frameX := 0
  frameY := 0
  frameWidth := 0
  frameHeight := 0
  frameDelay := 0
  disposalMethod := 0
  imageFlags := 0
  hasTransparency := false
  transparentIndex := 0
  backgroundColor := 0
  globalColorTable := none
  localColorTable := none
  globalColorTableSize := 0
  localColorTableSize := 0
  frameBuffer := none
  previousFrame := none
  totalDuration := 0

/-- The byte source used by `readData`: the reader callback takes precedence
over the in-memory buffer, as in the C `if (_reader) ... else if (_data)`. -/
def srcBytes (st : GifState) : Option (List Nat) :=
  match st.reader with
  | some r => some r
  | none => st.data

/-- Bounds-checked read of `len` bytes at `position` from a byte list; this is
the semantics of `readData` for the in-memory path (`position + length >
_dataLength` fails) and of the canonical list-backed reader. -/
def readBytes (src : List Nat) (len pos : Nat) : Option (List Nat) :=
  if pos + len ≤ src.length then some ((src.drop pos).take len) else none

/-- Model of `Impl::readData`. -/
def readData (st : GifState) (len pos : Nat) : Option (List Nat) :=
  match srcBytes st with
  | some src => readBytes src len pos
  | none => none

/-- Model of `ESP32_GIF_Utils::allocateMemory`: returns no buffer for size 0,
otherwise a zero-initialized buffer (allocation failure is not modelled). -/
def allocBuf (size : Nat) : Option (List Nat) :=
  if size = 0 then none else some (List.replicate size 0)

/-- The per-pixel byte multiplier of the `switch (_pixelFormat)` blocks that
compute `bufferSize` in `allocateFrameBuffer`, `resetFrameBuffer` and
`applyDisposal`. -/
def bytesPerPixel (pf : PixelFormat) : Nat :=
  match pf with
  | .RGB565_LE => 2
  | .RGB565_BE => 2
  | .RGB888 => 3
  | .ARGB8888 => 4
  | .GRAYSCALE_8BIT => 1
  | .MONOCHROME_1BIT => 1

/-- `bufferSize` as recomputed from the current canvas dimensions and format. -/
def bufferBytes (st : GifState) : Nat :=
  st.canvasWidth * st.canvasHeight * bytesPerPixel st.pixelFormat

/-- Model of `Impl::resetFrameState`. -/
def resetFrameState (st : GifState) : GifState :=
  { st with frameX := 0, frameY := 0, frameWidth := 0, frameHeight := 0,
            frameDelay := 0, disposalMethod := 0, imageFlags := 0,
            hasTransparency := false, transparentIndex := 0 }

/-- Model of `Impl::resetState` (note: it does not touch `_data`,
`_dataLength`, `_dataPosition`, `_reader`, `_loop` or `_lastError`). -/
def resetState (st : GifState) : GifState :=
  let st := resetFrameState st
  { st with canvasWidth := 0, canvasHeight := 0, currentFrame := 0,
            totalFrames := 0, totalDuration := 0,
            globalColorTable := none, localColorTable := none,
            globalColorTableSize := 0, localColorTableSize := 0,
            frameBuffer := none, previousFrame := none }

/-- Model of `Impl::cleanup`: frees `_data` and all tables/buffers, then
`resetState` (which nulls the tables and buffers again). -/
def cleanup (st : GifState) : GifState :=
  resetState { st with data := none }

/-- Model of `Impl::allocateFrameBuffer`: frees old buffers, recomputes
`bufferSize` and allocates two zeroed canvas buffers. -/
def allocateFrameBuffer (st : GifState) : GifState :=
  { st with frameBuffer := allocBuf (bufferBytes st),
            previousFrame := allocBuf (bufferBytes st) }

/-- Model of `memset(buf, 0, n)` on a byte buffer. -/
def memZero (buf : List Nat) (n : Nat) : List Nat :=
  List.replicate (min n buf.length) 0 ++ buf.drop n

/-- Model of `Impl::resetFrameBuffer`: zeroes both canvas buffers when both
are allocated. -/
def resetFrameBuffer (st : GifState) : GifState :=
  match st.frameBuffer, st.previousFrame with
  | some fb, some pf =>
      { st with frameBuffer := some (memZero fb (bufferBytes st)),
                previousFrame := some (memZero pf (bufferBytes st)) }
  | _, _ => st

/-- Model of the C expression `colorTable[colorIndex]` where `colorTable` is a
`uint32_t*` pointing at the raw 3-bytes-per-entry table data: a little-endian
4-byte load at byte offset `4 * i` (the ESP32 is little-endian).  A load past
the table's end is undefined behaviour in C; it is modelled here as reading 0
bytes, and every concrete input used below keeps the load in bounds. -/
def tableColor (t : List Nat) (i : Nat) : Nat :=
  t.getD (4 * i) 0 ||| (t.getD (4 * i + 1) 0 <<< 8) |||
    (t.getD (4 * i + 2) 0 <<< 16) ||| (t.getD (4 * i + 3) 0 <<< 24)

/-- Model of `Impl::drawPixel` (the pixel callback, an external effect, is
omitted; the write into `_frameBuffer` is kept). -/
def drawPixel (st : GifState) (x y r g b : Nat) : GifState :=
  if x ≥ st.canvasWidth ∨ y ≥ st.canvasHeight then st
  else
    match st.frameBuffer with
    | none => st
    | some fb =>
      let off := y * st.canvasWidth + x
      let fb' :=
        match st.pixelFormat with
        | .RGB565_LE =>
            let c := rgb888To565 r g b
            (fb.set (off * 2) (c &&& 0xFF)).set (off * 2 + 1) (c >>> 8)
        | .RGB565_BE =>
            let c := rgb888To565 r g b
            (fb.set (off * 2) (c >>> 8)).set (off * 2 + 1) (c &&& 0xFF)
        | .RGB888 =>
            ((fb.set (off * 3) r).set (off * 3 + 1) g).set (off * 3 + 2) b
        | .ARGB8888 =>
            (((fb.set (off * 4) 0xFF).set (off * 4 + 1) r).set
              (off * 4 + 2) g).set (off * 4 + 3) b
        | .GRAYSCALE_8BIT =>
            fb.set off (rgb888ToGrayscale r g b)
        | .MONOCHROME_1BIT =>
            let gray := rgb888ToGrayscale r g b
            let bitPosition := x % 8
            let byteOffset := off / 8
            if gray > 127 then
              fb.set byteOffset (fb.getD byteOffset 0 ||| (1 <<< (7 - bitPosition)))
            else
              fb.set byteOffset (fb.getD byteOffset 0 &&& (0xFF ^^^ (1 <<< (7 - bitPosition))))
      { st with frameBuffer := some fb' }

/-- Model of `Impl::fillTestPattern`.  Note `(x + y) % _localColorTableSize` is
evaluated with whatever `_localColorTableSize` currently is; when it is 0 the C
expression is a division by zero (undefined behaviour), modelled here by Lean's
`x % 0 = x`.  The `uint8_t` store of `colorIndex` is the `% 2 ^ 8`. -/
def fillTestPattern (st : GifState) : GifState :=
  let octable :=
    match st.localColorTable with
    | some t => some t
    | none => st.globalColorTable
  match octable, st.frameBuffer with
  | some ctable, some _ =>
      (List.range st.frameHeight).foldl (fun st1 y =>
        (List.range st.frameWidth).foldl (fun st2 x =>
          let colorIndex := ((x + y) % st2.localColorTableSize) % 2 ^ 8
          if st2.hasTransparency ∧ colorIndex = st2.transparentIndex then st2
          else
            let rgb := tableColor ctable colorIndex
            drawPixel st2 (x + st2.frameX) (y + st2.frameY)
              ((rgb >>> 16) &&& 0xFF) ((rgb >>> 8) &&& 0xFF) (rgb &&& 0xFF)) st1) st
  | _, _ => st

/-- Model of `memcpy(dst, src, n)` on byte buffers. -/
def memCopy (dst src : List Nat) (n : Nat) : List Nat :=
  src.take n ++ dst.drop n

/-- Model of `Impl::applyDisposal`: the disposal branch on the just-parsed
`_disposalMethod`, followed by the unconditional snapshot of `_frameBuffer`
into `_previousFrame`. -/
def applyDisposal (st : GifState) : GifState :=
  let st1 :=
    if st.disposalMethod = 2 then
      match st.globalColorTable with
      | some ct =>
        if st.backgroundColor < st.globalColorTableSize then
          let rgb := tableColor ct st.backgroundColor
          let r := (rgb >>> 16) &&& 0xFF
          let g := (rgb >>> 8) &&& 0xFF
          let b := rgb &&& 0xFF
          (List.range st.frameHeight).foldl (fun s1 y =>
            (List.range st.frameWidth).foldl (fun s2 x =>
              drawPixel s2 (x + s2.frameX) (y + s2.frameY) r g b) s1) st
        else st
      | none => st
    else if st.disposalMethod = 3 then
      match st.frameBuffer, st.previousFrame with
      | some fb, some pf =>
          { st with frameBuffer := some (memCopy fb pf (bufferBytes st)) }
      | _, _ => st
    else st
  match st1.frameBuffer, st1.previousFrame with
  | some fb, some pf =>
      { st1 with previousFrame := some (memCopy pf fb (bufferBytes st1)) }
  | _, _ => st1

/-- Model of the sub-block skipping loops of `parseFrame` (extension data) and
`decodeFrame` (image data): read a length byte, advance past it and its
payload, stop after a zero length.  Result `(false, p)` means the read at `p`
failed; `(true, p)` is the position after the chain terminator.  Each
iteration needs a successful 1-byte read (so `pos < src.length`) and advances
`pos` by at least 2, hence `src.length + 1` fuel is never exhausted. -/
def skipChainLoop (src : List Nat) : Nat → Nat → Bool × Nat
  | 0, pos => (false, pos)
  | fuel + 1, pos =>
    match readBytes src 1 pos with
    | none => (false, pos)
    | some blk =>
      let b := blk.getD 0 0
      if b = 0 then (true, pos + 1)
      else skipChainLoop src fuel (pos + 1 + b)

def skipChain (src : List Nat) (pos : Nat) : Bool × Nat :=
  skipChainLoop src (src.length + 1) pos

/-- Model of `Impl::parseFrame`'s scanning loop (`while (_dataPosition <
_dataLength)`).  Every iteration strictly increases `_dataPosition` while it
is `< _dataLength`, so `_dataLength + 1` fuel is never exhausted; the fuel-0
result mirrors the loop-exit EMPTY_FRAME case. -/
def parseFrameLoop : Nat → GifState → Bool × GifState
  | 0, st => (false, { st with lastError := .EMPTY_FRAME })
  | fuel + 1, st =>
    if st.dataPosition < st.dataLength then
      match readData st 1 st.dataPosition with
      | none => (false, { st with lastError := .EARLY_EOF })
      | some blk =>
        let b := blk.getD 0 0
        if b = 0x21 then
          let st := { st with dataPosition := st.dataPosition + 1 }
          match readData st 1 st.dataPosition with
          | none => (false, { st with lastError := .EARLY_EOF })
          | some blk2 =>
            let extensionType := blk2.getD 0 0
            let st := { st with dataPosition := st.dataPosition + 1 }
            let next : Option GifState :=
              if extensionType = 0xF9 then
                match readData st 5 st.dataPosition with
                | none => none
                | some gce =>
                  let packed := gce.getD 0 0
                  some { st with
                    disposalMethod := (packed >>> 2) &&& 0x07,
                    hasTransparency := packed &&& 0x01 ≠ 0,
                    frameDelay :=
                      max ((((gce.getD 2 0) <<< 8 ||| gce.getD 1 0) * 10) % 2 ^ 16) 20,
                    transparentIndex := gce.getD 3 0,
                    dataPosition := st.dataPosition + 5 }
              else some st
            match next with
            | none => (false, { st with lastError := .EARLY_EOF })
            | some st =>
              match skipChain ((srcBytes st).getD []) st.dataPosition with
              | (false, p) =>
                  (false, { st with dataPosition := p, lastError := .EARLY_EOF })
              | (true, p) => parseFrameLoop fuel { st with dataPosition := p }
        else if b = 0x2C then
          match readData st 9 (st.dataPosition + 1) with
          | none => (false, { st with lastError := .EARLY_EOF })
          | some d =>
            let st := { st with
              frameX := d.getD 0 0 ||| (d.getD 1 0 <<< 8),
              frameY := d.getD 2 0 ||| (d.getD 3 0 <<< 8),
              frameWidth := d.getD 4 0 ||| (d.getD 5 0 <<< 8),
              frameHeight := d.getD 6 0 ||| (d.getD 7 0 <<< 8),
              imageFlags := d.getD 8 0 }
            let st := { st with dataPosition := st.dataPosition + 10 }
            if st.imageFlags &&& 0x80 ≠ 0 then
              let lsize := 2 ^ ((st.imageFlags &&& 0x07) + 1)
              let st := { st with localColorTableSize := lsize,
                                  localColorTable := some (List.replicate (lsize * 3) 0) }
              match readData st (lsize * 3) st.dataPosition with
              | none => (false, { st with lastError := .EARLY_EOF })
              | some tbl =>
                  (true, { st with localColorTable := some tbl,
                                   dataPosition := st.dataPosition + lsize * 3 })
            else (true, st)
        else if b = 0x3B then (false, { st with lastError := .EMPTY_FRAME })
        else parseFrameLoop fuel { st with dataPosition := st.dataPosition + 1 }
    else (false, { st with lastError := .EMPTY_FRAME })

/-- Model of `Impl::parseFrame` (resets the per-frame state, then scans). -/
def parseFrame (st : GifState) : Bool × GifState :=
  parseFrameLoop (st.dataLength + 1) (resetFrameState st)

/-- Model of `Impl::decodeFrame`: reads the LZW minimum-code-size byte (whose
value is never used), skips every image-data sub-block without decoding it,
then fills the frame with the synthetic test pattern. -/
def decodeFrame (st : GifState) : Bool × GifState :=
  match readData st 1 st.dataPosition with
  | none => (false, { st with lastError := .DECODE_ERROR })
  | some _ =>
    let st := { st with dataPosition := st.dataPosition + 1 }
    match skipChain ((srcBytes st).getD []) st.dataPosition with
    | (false, p) => (false, { st with dataPosition := p, lastError := .DECODE_ERROR })
    | (true, p) => (true, fillTestPattern { st with dataPosition := p })

/-- Model of the inner `while (pos < _dataLength)` sub-block skipping loops of
`countFrames`; a failed read merely breaks the loop, returning the position
reached.  Each iteration needs `pos < len` and advances `pos`, so `len + 1`
fuel is never exhausted. -/
def cfSkipSubLoop (src : List Nat) (len : Nat) : Nat → Nat → Nat
  | 0, pos => pos
  | fuel + 1, pos =>
    if pos < len then
      match readBytes src 1 pos with
      | none => pos
      | some blk =>
        let b := blk.getD 0 0
        if b = 0 then pos + 1
        else cfSkipSubLoop src len fuel (pos + 1 + b)
    else pos

def cfSkipSub (src : List Nat) (len pos : Nat) : Nat :=
  cfSkipSubLoop src len (len + 1) pos

/-- Model of the outer `while (pos < _dataLength - 1)` loop of `countFrames`,
returning the final `(_totalFrames, _totalDuration)` (a `uint16_t` and a
`uint32_t`).  `len` is `_dataLength` and `bound` the `uint32_t` value
`_dataLength - 1`.  Every iteration advances `pos` while `pos < bound`, so
`bound + 1` fuel is never exhausted. -/
def cfLoop (src : List Nat) (len bound : Nat) : Nat → Nat → Nat → Nat → Nat × Nat
  | 0, _, frames, dur => (frames, dur)
  | fuel + 1, pos, frames, dur =>
    if pos < bound then
      match readBytes src 1 pos with
      | none => (frames, dur)
      | some blk =>
        let b := blk.getD 0 0
        if b = 0x2C then
          let frames := (frames + 1) % 2 ^ 16
          let pos := pos + 10
          match readBytes src 1 pos with
          | none => (frames, dur)
          | some blk2 =>
            let flags := blk2.getD 0 0
            let pos :=
              if flags &&& 0x80 ≠ 0 then pos + (2 ^ ((flags &&& 0x07) + 1)) * 3 + 1
              else pos + 1
            cfLoop src len bound fuel (cfSkipSub src len pos) frames dur
        else if b = 0x21 then
          let pos := pos + 1
          match readBytes src 1 pos with
          | none => (frames, dur)
          | some blk2 =>
            let extensionType := blk2.getD 0 0
            let pos := pos + 1
            let step : Option (Nat × Nat) :=
              if extensionType = 0xF9 then
                match readBytes src 5 pos with
                | none => none
                | some gce =>
                  let delay := max (((gce.getD 2 0) <<< 8 ||| gce.getD 1 0) % 2 ^ 16) 2
                  some (pos + 5, (dur + delay * 10) % 2 ^ 32)
              else some (pos, dur)
            match step with
            | none => (frames, dur)
            | some pd =>
                cfLoop src len bound fuel (cfSkipSub src len pd.1) frames pd.2
        else if b = 0x3B then (frames, dur)
        else cfLoop src len bound fuel (pos + 1) frames dur
    else (frames, dur)

/-- Model of `Impl::countFrames`.  The loop bound `_dataLength - 1` is
`uint32_t` arithmetic, wrapping to `2 ^ 32 - 1` when `_dataLength = 0`. -/
def countFrames (st : GifState) : GifState :=
  let len := st.dataLength
  let bound := if len = 0 then 2 ^ 32 - 1 else len - 1
  let src := (srcBytes st).getD []
  let fd := cfLoop src len bound (bound + 1) st.dataPosition 0 0
  { st with totalFrames := fd.1, totalDuration := fd.2,
            dataPosition := 13 + st.globalColorTableSize * 3 }

/-- Value of `ESP32_ANIMATEDGIF_MAX_WIDTH` in the default configuration. -/
def maxWidth : Nat := 800

/-- Value of `ESP32_ANIMATEDGIF_MAX_HEIGHT` in the default configuration. -/
def maxHeight : Nat := 600

/-- Bytes of the signature string GIF89a. -/
def sig89 : List Nat := [0x47, 0x49, 0x46, 0x38, 0x39, 0x61]

/-- Bytes of the signature string GIF87a. -/
def sig87 : List Nat := [0x47, 0x49, 0x46, 0x38, 0x37, 0x61]

/-- The tail of `parseHeader` after the global-color-table handling: the frame
pre-scan, the canvas buffer allocation and the SUCCESS result. -/
def finishHeader (st : GifState) : GIFError × GifState :=
  let st := allocateFrameBuffer (countFrames st)
  (.SUCCESS, { st with lastError := .SUCCESS })

/-- Model of `Impl::parseHeader` (used by `loadFromMemory` and `reset`).
Note: both reads go through `readData`, which depends only on `_reader` and
`_data`; neither field changes inside `parseHeader`, so the global-color-table
read (at `_dataPosition = 13`) is written against the input state `st`. -/
def parseHeader (st : GifState) : GIFError × GifState :=
  match readData st 13 0 with
  | none => (.FILE_NOT_FOUND, { st with lastError := .FILE_NOT_FOUND })
  | some header =>
    if header.take 6 ≠ sig89 ∧ header.take 6 ≠ sig87 then
      (.BAD_FILE_FORMAT, { st with lastError := .BAD_FILE_FORMAT })
    else
      let st1 := { st with
        canvasWidth := header.getD 6 0 ||| (header.getD 7 0 <<< 8),
        canvasHeight := header.getD 8 0 ||| (header.getD 9 0 <<< 8) }
      if st1.canvasWidth > maxWidth ∨ st1.canvasHeight > maxHeight then
        (.FILE_TOO_WIDE, { st1 with lastError := .FILE_TOO_WIDE })
      else
        let flags := header.getD 10 0
        let st2 := { st1 with backgroundColor := header.getD 11 0, dataPosition := 13 }
        if flags &&& 0x80 ≠ 0 then
          let gsize := 2 ^ ((flags &&& 0x07) + 1)
          let st3 := { st2 with globalColorTableSize := gsize,
                                globalColorTable := some (List.replicate (gsize * 3) 0) }
          match readData st (gsize * 3) 13 with
          | none => (.EARLY_EOF, { st3 with lastError := .EARLY_EOF })
          | some tbl =>
            finishHeader { st3 with globalColorTable := some tbl,
                                    dataPosition := 13 + gsize * 3 }
        else finishHeader st2

/-- Model of `Impl::loadFromMemory` (the copy of the caller's buffer into
`_data` is `data := some bytes`; its allocation is modelled as succeeding). -/
def loadFromMemory (st : GifState) (bytes : List Nat) : GIFError × GifState :=
  let st := cleanup st
  if bytes.length = 0 then
    (.INVALID_PARAMETER, { st with lastError := .INVALID_PARAMETER })
  else
    parseHeader { st with data := some bytes, dataLength := bytes.length,
                          dataPosition := 0 }

/-- Model of `Impl::load` with the canonical list-backed reader.  Note: the C
code neither pre-scans the stream nor allocates canvas buffers on this path,
and the result of the global-color-table read is not checked. -/
def load (st : GifState) (readerSrc : List Nat) : GIFError × GifState :=
  let st := cleanup st
  let st := { st with reader := some readerSrc }
  match readData st 13 0 with
  | none => (.FILE_NOT_FOUND, { st with lastError := .FILE_NOT_FOUND })
  | some header =>
    if header.take 6 ≠ sig89 ∧ header.take 6 ≠ sig87 then
      (.BAD_FILE_FORMAT, { st with lastError := .BAD_FILE_FORMAT })
    else
      let st := { st with
        canvasWidth := header.getD 6 0 ||| (header.getD 7 0 <<< 8),
        canvasHeight := header.getD 8 0 ||| (header.getD 9 0 <<< 8) }
      if st.canvasWidth > maxWidth ∨ st.canvasHeight > maxHeight then
        (.FILE_TOO_WIDE, { st with lastError := .FILE_TOO_WIDE })
      else
        let flags := header.getD 10 0
        let st := { st with backgroundColor := header.getD 11 0 }
        let st :=
          if flags &&& 0x80 ≠ 0 then
            let gsize := 2 ^ ((flags &&& 0x07) + 1)
            let st := { st with globalColorTableSize := gsize,
                                globalColorTable := some (List.replicate (gsize * 3) 0) }
            match readData st (gsize * 3) 13 with
            | none => st
            | some tbl => { st with globalColorTable := some tbl }
          else st
        (.SUCCESS, { st with lastError := .SUCCESS })

/-- Model of `Impl::reset`: rewind, zero the canvas buffers, re-parse. -/
def reset (st : GifState) : GifState :=
  (parseHeader (resetFrameBuffer { st with dataPosition := 0, currentFrame := 0 })).2

/-- The body of `nextFrame` after the restart/exhaustion check:
parse → decode (test pattern) → disposal → frame-index increment.  The
optional blocking `delay(_frameDelay)` is a pure timing effect and omitted. -/
def nextFrameCore (st : GifState) : GIFError × GifState :=
  match parseFrame st with
  | (false, st) => (st.lastError, st)
  | (true, st) =>
    match decodeFrame st with
    | (false, st) => (st.lastError, st)
    | (true, st) =>
      let st := applyDisposal st
      (.SUCCESS, { st with currentFrame := (st.currentFrame + 1) % 2 ^ 16 })

/-- Model of `Impl::nextFrame`. -/
def nextFrame (st : GifState) : GIFError × GifState :=
  if st.lastError ≠ .SUCCESS then (st.lastError, st)
  else if st.currentFrame ≥ st.totalFrames ∧ st.loop then nextFrameCore (reset st)
  else if st.currentFrame ≥ st.totalFrames then
    (.EMPTY_FRAME, { st with lastError := .EMPTY_FRAME })
  else nextFrameCore st

/-- Model of `Impl::getFrameCount`. -/
def getFrameCount (st : GifState) : Nat := st.totalFrames

/-- Model of `Impl::isAnimationComplete`: `!_loop && _currentFrame >= _totalFrames`. -/
def isAnimationComplete (st : GifState) : Bool :=
  !st.loop && decide (st.totalFrames ≤ st.currentFrame)

/-!
Spec-side description of the GIF data-block region, used to state the
pre-scan claims: a stream after the header and global color table is a list
of blocks (extensions and image descriptors) followed by the 0x3B trailer.
This follows the container grammar of the spec (section 4.2 and 6), not the
scanner's code.
-/

/-- A data block of the stream region between the global color table and the
trailer: a generic extension (introducer 0x21, one label byte, a sub-block
chain), a Graphic Control Extension (label 0xF9, fixed 4-byte payload inside
a size-4 sub-block, then the chain terminator) or an Image Descriptor
(introducer 0x2C, 9-byte payload, optional local color table, the LZW
minimum-code-size byte and the image-data sub-block chain). -/
inductive GifBlock where
  | ext (label : Nat) (subs : List (List Nat))
  | gce (packed dlo dhi tidx : Nat)
  | desc (payload : List Nat) (lct : List Nat) (minCode : Nat) (subs : List (List Nat))
deriving DecidableEq

/-- Serialization of a sub-block chain: each sub-block is its length byte
followed by its data, and the chain ends with a zero length byte. -/
def chainBytes (subs : List (List Nat)) : List Nat :=
  (subs.map (fun s => s.length :: s)).flatten ++ [0]

/-- Serialization of one block. -/
def blockBytes : GifBlock → List Nat
  | .ext label subs => 0x21 :: label :: chainBytes subs
  | .gce packed dlo dhi tidx => [0x21, 0xF9, 4, packed, dlo, dhi, tidx, 0]
  | .desc payload lct minCode subs =>
      0x2C :: payload ++ lct ++ minCode :: chainBytes subs

/-- Serialization of a block list. -/
def blocksBytes (blocks : List GifBlock) : List Nat :=
  (blocks.map blockBytes).flatten

/-- A complete GIF stream: 13-byte header (signature GIF89a, width and height
as little-endian 16-bit pairs, packed flags, background index, aspect byte),
the global color table bytes, the data blocks, and the 0x3B trailer. -/
def mkStream (wlo whi hlo hhi flags bg asp : Nat) (gt : List Nat)
    (blocks : List GifBlock) : List Nat :=
  [0x47, 0x49, 0x46, 0x38, 0x39, 0x61, wlo, whi, hlo, hhi, flags, bg, asp] ++
    gt ++ blocksBytes blocks ++ [0x3B]

/-- The number of Image Descriptors among the blocks (the spec's frame
count). -/
def numDesc (blocks : List GifBlock) : Nat :=
  (blocks.filter (fun b => match b with | .desc _ _ _ _ => true | _ => false)).length

/-- The sum, over the Graphic Control Extensions, of the per-GCE duration
contribution the pre-scan computes: `10 * max d 2` milliseconds where `d` is
the 16-bit value the scanner assembles from the GCE's packed-flags byte (low
half) and low delay byte (high half). -/
def sumDelays (blocks : List GifBlock) : Nat :=
  (blocks.map (fun b => match b with
    | .gce packed dlo _ _ => 10 * max ((dlo <<< 8) ||| packed) 2
    | _ => 0)).sum

/-- Well-formedness of a sub-block chain: every sub-block holds between 1 and
255 data bytes (so its length fits the length byte and is nonzero). -/
def WfChain (subs : List (List Nat)) : Prop :=
  ∀ s ∈ subs, 1 ≤ s.length ∧ s.length ≤ 255

/-- Well-formedness of a block, as needed for the pre-scan to walk it
correctly: plain extensions carry a label other than 0xF9, GCE byte fields
are bytes, and image descriptors have a 9-byte payload, no local color table
(descriptor flags bit 7 clear) and a minimum-code-size byte with bit 7 clear. -/
def WfBlock : GifBlock → Prop
  | .ext label subs => label ≠ 0xF9 ∧ WfChain subs
  | .gce packed dlo dhi tidx => packed < 256 ∧ dlo < 256 ∧ dhi < 256 ∧ tidx < 256
  | .desc payload lct minCode subs =>
      payload.length = 9 ∧ payload.getD 8 0 &&& 0x80 = 0 ∧ lct = [] ∧
        minCode &&& 0x80 = 0 ∧ WfChain subs

/-!
Concrete input streams used as failing inputs and counterexamples.
-/

/-- A 2-entry global color table (6 raw RGB bytes). -/
def gtest : List Nat := [10, 20, 30, 40, 50, 60]

/-- A 4-entry local color table (12 raw RGB bytes). -/
def ltest : List Nat := [0, 0, 100, 0, 0, 200, 7, 7, 7, 9, 9, 9]

/-- A single-frame stream (canvas 2x2, global table, one 2x2 frame with a
4-entry local color table) whose single image-data sub-block carries the one
payload byte `p`. -/
def streamC1 (p : Nat) : List Nat :=
  mkStream 2 0 2 0 0x80 0 0 gtest
    [GifBlock.desc [0, 0, 0, 0, 2, 0, 2, 0, 0x81] ltest 2 [[p]]]

/-- A stream whose extension block carries label 0xF9 but a corrupted
block-size byte `d`; `parseFrame` reads `d` as the GCE packed-flags field, so
`d = 8` makes the parsed disposal method 2 (restore-background). -/
def streamC3 (d : Nat) : List Nat :=
  [0x47, 0x49, 0x46, 0x38, 0x39, 0x61, 2, 0, 2, 0, 0x80, 0, 0] ++ gtest ++
    [0x21, 0xF9, d, 0, 0, 0, 0, 0] ++
    [0x2C, 0, 0, 0, 0, 2, 0, 2, 0, 0x81] ++ ltest ++ [2, 1, 5, 0, 0x3B]

/-- A stream with a global color table whose single 1x1 frame has no local
color table. -/
def streamC4 : List Nat :=
  [0x47, 0x49, 0x46, 0x38, 0x39, 0x61, 2, 0, 2, 0, 0x80, 0, 0] ++ gtest ++
    [0x2C, 0, 0, 0, 0, 1, 0, 1, 0, 0, 2, 0, 0x3B]

/-- A stream with a well-formed Graphic Control Extension encoding a delay of
1 centisecond (delay bytes 0x01 0x00), followed by a 1x1 frame. -/
def streamC8 : List Nat :=
  [0x47, 0x49, 0x46, 0x38, 0x39, 0x61, 2, 0, 2, 0, 0x80, 0, 0] ++ gtest ++
    [0x21, 0xF9, 4, 0, 1, 0, 0, 0] ++
    [0x2C, 0, 0, 0, 0, 1, 0, 1, 0, 0, 2, 0, 0x3B]

/-- A well-formed single-descriptor block list (1x1 frame, no local table,
empty image-data chain). -/
def descV : GifBlock := GifBlock.desc [0, 0, 0, 0, 1, 0, 1, 0, 0] [] 2 []

/-- A well-formed one-frame stream, used for the pull-reader path. -/
def streamV : List Nat := mkStream 2 0 2 0 0x80 0 0 gtest [descV]

/-- A one-frame stream whose frame has a 2-entry local color table whose raw
bytes begin `0, 0, 0x2C`; the pre-scan misparses the table and counts the
stray 0x2C as a second Image Descriptor. -/
def streamLCT : List Nat :=
  mkStream 2 0 2 0 0x80 0 0 gtest
    [GifBlock.desc [0, 0, 0, 0, 1, 0, 1, 0, 0x80] [0, 0, 0x2C, 0, 0, 0] 2 [[5]]]

/-- A one-frame stream with a GCE whose delay bytes are 0x1A 0x00 (26
centiseconds); the scanner assembles the raw value 26·256 = 6656 from the
wrong bytes, so the pre-scan adds 66560 ms while the parsed per-frame delay
is 66560 mod 2^16 = 1024 ms. -/
def streamDur : List Nat :=
  mkStream 2 0 2 0 0x80 0 0 gtest [GifBlock.gce 0 26 0 0, descV]

/-- A 13-byte buffer that is not a GIF header. -/
def zeros13 : List Nat := List.replicate 13 0

/-!
Helper lemmas shared by the claim theorems.
-/

theorem getD_take_of_lt (l : List Nat) {i n : Nat} (h : i < n) :
    (l.take n).getD i 0 = l.getD i 0 := by
  rw [List.getD_eq_getElem?_getD, List.getD_eq_getElem?_getD, List.getElem?_take_of_lt h]

theorem readData_eq (st : GifState) (bytes : List Nat) (len pos : Nat)
    (hsrc : srcBytes st = some bytes) (h : pos + len ≤ bytes.length) :
    readData st len pos = some ((bytes.drop pos).take len) := by
  unfold readData
  rw [hsrc]
  simp only [readBytes, if_pos h]

theorem finishHeader_snd_lastError (st : GifState) :
    (finishHeader st).2.lastError = GIFError.SUCCESS := rfl

theorem finishHeader_fst (st : GifState) :
    (finishHeader st).1 = GIFError.SUCCESS := rfl

/-- Every branch of `parseHeader` records the returned error in `_lastError`. -/
theorem parseHeader_snd_lastError (st : GifState) :
    (parseHeader st).2.lastError = (parseHeader st).1 := by
  unfold parseHeader
  split
  · rfl
  · split
    · rfl
    · dsimp only
      split
      · rfl
      · split
        · split
          · rfl
          · exact finishHeader_snd_lastError _
        · exact finishHeader_snd_lastError _

/-- `parseHeader` never changes `_currentFrame`. -/
theorem parseHeader_snd_currentFrame (st : GifState) :
    (parseHeader st).2.currentFrame = st.currentFrame := by
  unfold parseHeader
  split
  · rfl
  · split
    · rfl
    · dsimp only
      split
      · rfl
      · split
        · split
          · rfl
          · rfl
        · rfl

theorem resetFrameBuffer_currentFrame (st : GifState) :
    (resetFrameBuffer st).currentFrame = st.currentFrame := by
  unfold resetFrameBuffer
  split
  · rfl
  · rfl

theorem loadFromMemory_snd_lastError (st : GifState) (bytes : List Nat) :
    (loadFromMemory st bytes).2.lastError = (loadFromMemory st bytes).1 := by
  unfold loadFromMemory
  split
  · rfl
  · exact parseHeader_snd_lastError _

/-!
Claim theorems.
-/

/-- C10: for every RGB triplet with components in [0, 255], the 8-bit
grayscale conversion returns exactly `(77 * R + 150 * G + 29 * B) >>> 8` (the
`uint8_t` cast loses nothing because the value is at most 255). -/
theorem C10_grayscale (r g b : Nat) (hr : r ≤ 255) (hg : g ≤ 255) (hb : b ≤ 255) :
    rgb888ToGrayscale r g b = (77 * r + 150 * g + 29 * b) >>> 8 := by
  unfold rgb888ToGrayscale
  rw [Nat.shiftRight_eq_div_pow, Nat.shiftRight_eq_div_pow]
  have hc : r * 77 + g * 150 + b * 29 = 77 * r + 150 * g + 29 * b := by ring
  rw [hc]
  exact Nat.mod_eq_of_lt (by omega)

/-- Witness for C10 at the concrete triplet (255, 128, 64). -/
theorem C10_grayscale_witness :
    rgb888ToGrayscale 255 128 64 = (77 * 255 + 150 * 128 + 29 * 64) >>> 8 :=
  C10_grayscale 255 128 64 (by decide) (by decide) (by decide)

/-- C1: `nextFrame` succeeds on two streams that differ only in the byte
carried by the frame's compressed image-data sub-block, yet produces the same
canvas contents for both — the pixel content comes from the synthetic
`fillTestPattern`, not from LZW-decoding the compressed data. -/
theorem C1_lzw_ignored :
    (nextFrame (loadFromMemory initState (streamC1 5)).2).1 = GIFError.SUCCESS ∧
    (nextFrame (loadFromMemory initState (streamC1 6)).2).1 = GIFError.SUCCESS ∧
    streamC1 5 ≠ streamC1 6 ∧
    (nextFrame (loadFromMemory initState (streamC1 5)).2).2.frameBuffer =
      (nextFrame (loadFromMemory initState (streamC1 6)).2).2.frameBuffer ∧
    (nextFrame (loadFromMemory initState (streamC1 5)).2).2.frameBuffer =
      some [0, 96, 64, 6, 64, 6, 64, 8] := by decide

/-- C3: on `streamC3 8` the very first `nextFrame` parses disposal method 2
for the frame it is about to draw and applies it after drawing that same
frame, so the canvas ends as a solid background fill; the identical stream
with disposal 0 keeps the drawn pattern.  Under the claim, a frame's
disposal would only act before the next frame, so the first frame's pixels
would appear on the canvas in both runs. -/
theorem C3_disposal_after_draw :
    (nextFrame (loadFromMemory initState (streamC3 8)).2).1 = GIFError.SUCCESS ∧
    (nextFrame (loadFromMemory initState (streamC3 0)).2).1 = GIFError.SUCCESS ∧
    (parseFrame (loadFromMemory initState (streamC3 8)).2).2.disposalMethod = 2 ∧
    (nextFrame (loadFromMemory initState (streamC3 8)).2).2.frameBuffer =
      some [161, 24, 161, 24, 161, 24, 161, 24] ∧
    (nextFrame (loadFromMemory initState (streamC3 0)).2).2.frameBuffer =
      some [0, 96, 64, 6, 64, 6, 64, 8] := by decide

/-- C4: after loading `streamC4` (global color table, frame without a local
color table) and parsing its frame, the state in which `decodeFrame` runs
`fillTestPattern` has a color table and a frame buffer, a nonempty 1x1 frame,
and `_localColorTableSize = 0` — so `(x + y) % _localColorTableSize` is
evaluated with divisor zero. -/
theorem C4_zero_divisor :
    (loadFromMemory initState streamC4).1 = GIFError.SUCCESS ∧
    (parseFrame (loadFromMemory initState streamC4).2).1 = true ∧
    (decodeFrame (parseFrame (loadFromMemory initState streamC4).2).2).1 = true ∧
    (parseFrame (loadFromMemory initState streamC4).2).2.localColorTableSize = 0 ∧
    (parseFrame (loadFromMemory initState streamC4).2).2.localColorTable = none ∧
    (parseFrame (loadFromMemory initState streamC4).2).2.globalColorTable = some gtest ∧
    (parseFrame (loadFromMemory initState streamC4).2).2.frameBuffer.isSome = true ∧
    (parseFrame (loadFromMemory initState streamC4).2).2.frameWidth = 1 ∧
    (parseFrame (loadFromMemory initState streamC4).2).2.frameHeight = 1 := by decide

/-- C8: `streamC8` encodes a delay of exactly 1 centisecond (delay bytes
0x01 0x00), but the parsed frame delay is 2560 ms, not the claimed 20 ms: the
code assembles the 16-bit delay from the GCE's low delay byte (as high half)
and packed-flags byte (as low half) instead of the little-endian delay pair.
The pre-scanned total duration shows the same 2560 ms. -/
theorem C8_delay_wrong_bytes :
    (loadFromMemory initState streamC8).1 = GIFError.SUCCESS ∧
    (parseFrame (loadFromMemory initState streamC8).2).1 = true ∧
    (parseFrame (loadFromMemory initState streamC8).2).2.frameDelay = 2560 ∧
    (loadFromMemory initState streamC8).2.totalDuration = 2560 := by decide

/-- C2 counterexample: on a 13-byte non-GIF buffer, `loadFromMemory` returns
BadFileFormat but the decoder still holds its copy of the raw input — an
allocation made by the failed load — and on a 6-byte non-GIF buffer the
result is FileNotFound, not BadFileFormat. -/
theorem C2_counterexample :
    (loadFromMemory initState zeros13).1 = GIFError.BAD_FILE_FORMAT ∧
    (loadFromMemory initState zeros13).2.data = some zeros13 ∧
    (loadFromMemory initState (List.replicate 6 0)).1 = GIFError.FILE_NOT_FOUND := by
  decide

theorem srcBytes_of_reader_none (st : GifState) (h : st.reader = none) :
    srcBytes st = st.data := by
  unfold srcBytes
  rw [h]

theorem take_six_of_take_13 (l : List Nat) : (l.take 13).take 6 = l.take 6 := by
  rw [List.take_take]
  norm_num

/-- `parseHeader` on a readable header with an invalid signature: the result
is BadFileFormat and the state changes only in `_lastError`. -/
theorem parseHeader_badsig (st : GifState) (bytes : List Nat)
    (hsrc : srcBytes st = some bytes) (hlen : 13 ≤ bytes.length)
    (h89 : bytes.take 6 ≠ sig89) (h87 : bytes.take 6 ≠ sig87) :
    parseHeader st = (.BAD_FILE_FORMAT, { st with lastError := .BAD_FILE_FORMAT }) := by
  have hread : readData st 13 0 = some (bytes.take 13) := by
    simpa using readData_eq st bytes 13 0 hsrc (by omega)
  unfold parseHeader
  rw [hread]
  simp only [take_six_of_take_13]
  rw [if_pos ⟨h89, h87⟩]

/-- C2 (amended): on a buffer of at least 13 bytes that does not start with
either GIF signature, `loadFromMemory` returns BadFileFormat with no color
tables and no canvas buffers allocated, but it retains the copied raw input;
the pull-reader `load` also returns BadFileFormat and holds no color tables,
canvas buffers or raw-data copy. -/
theorem C2_amended (st : GifState) (bytes : List Nat)
    (hr : st.reader = none) (hlen : 13 ≤ bytes.length)
    (h89 : bytes.take 6 ≠ sig89) (h87 : bytes.take 6 ≠ sig87) :
    (loadFromMemory st bytes).1 = GIFError.BAD_FILE_FORMAT ∧
    (loadFromMemory st bytes).2.globalColorTable = none ∧
    (loadFromMemory st bytes).2.localColorTable = none ∧
    (loadFromMemory st bytes).2.frameBuffer = none ∧
    (loadFromMemory st bytes).2.previousFrame = none ∧
    (loadFromMemory st bytes).2.data = some bytes ∧
    (load st bytes).1 = GIFError.BAD_FILE_FORMAT ∧
    (load st bytes).2.globalColorTable = none ∧
    (load st bytes).2.localColorTable = none ∧
    (load st bytes).2.frameBuffer = none ∧
    (load st bytes).2.previousFrame = none ∧
    (load st bytes).2.data = none := by
  have hsrc1 : srcBytes { (cleanup st) with data := some bytes, dataLength := bytes.length, dataPosition := 0 } = some bytes := by
    unfold srcBytes cleanup resetState resetFrameState
    dsimp only
    rw [hr]
  have hmem : loadFromMemory st bytes =
      parseHeader { (cleanup st) with data := some bytes, dataLength := bytes.length, dataPosition := 0 } := by
    unfold loadFromMemory
    rw [if_neg (by omega)]
  have hbad := parseHeader_badsig _ bytes hsrc1 hlen h89 h87
  have hsrc2 : srcBytes { (cleanup st) with reader := some bytes } = some bytes := rfl
  have hread2 : readData { (cleanup st) with reader := some bytes } 13 0 = some (bytes.take 13) := by
    simpa using readData_eq _ bytes 13 0 hsrc2 (by omega)
  have hl : load st bytes = (GIFError.BAD_FILE_FORMAT,
      { ({ (cleanup st) with reader := some bytes }) with lastError := GIFError.BAD_FILE_FORMAT }) := by
    unfold load
    dsimp only
    rw [hread2]
    simp only [take_six_of_take_13]
    rw [if_pos ⟨h89, h87⟩]
  rw [hmem, hbad, hl]
  refine ⟨rfl, rfl, rfl, rfl, rfl, rfl, rfl, rfl, rfl, rfl, rfl, rfl⟩

/-- Witness for C2 (amended) at the 13-zero-byte buffer. -/
theorem C2_amended_witness :
    (loadFromMemory initState zeros13).1 = GIFError.BAD_FILE_FORMAT ∧
    (loadFromMemory initState zeros13).2.globalColorTable = none ∧
    (loadFromMemory initState zeros13).2.localColorTable = none ∧
    (loadFromMemory initState zeros13).2.frameBuffer = none ∧
    (loadFromMemory initState zeros13).2.previousFrame = none ∧
    (loadFromMemory initState zeros13).2.data = some zeros13 ∧
    (load initState zeros13).1 = GIFError.BAD_FILE_FORMAT ∧
    (load initState zeros13).2.globalColorTable = none ∧
    (load initState zeros13).2.localColorTable = none ∧
    (load initState zeros13).2.frameBuffer = none ∧
    (load initState zeros13).2.previousFrame = none ∧
    (load initState zeros13).2.data = none :=
  C2_amended initState zeros13 rfl (by decide) (by decide) (by decide)

/-- C5: once `_lastError` is anything but SUCCESS, `nextFrame` returns that
error with the state — frame index and canvas included — completely
unchanged; a `reset()` whose re-parse succeeds and a reload that succeeds
both clear `_lastError` back to SUCCESS. -/
theorem C5_sticky_error (st : GifState) (bytes : List Nat)
    (h : st.lastError ≠ GIFError.SUCCESS) :
    nextFrame st = (st.lastError, st) ∧
    ((parseHeader (resetFrameBuffer { st with dataPosition := 0, currentFrame := 0 })).1 =
        GIFError.SUCCESS →
      (reset st).lastError = GIFError.SUCCESS) ∧
    ((loadFromMemory st bytes).1 = GIFError.SUCCESS →
      (loadFromMemory st bytes).2.lastError = GIFError.SUCCESS) := by
  refine ⟨?_, ?_, ?_⟩
  · unfold nextFrame
    rw [if_pos h]
  · intro hp
    unfold reset
    rw [parseHeader_snd_lastError]
    exact hp
  · intro hp
    rw [loadFromMemory_snd_lastError]
    exact hp

/-- A session state whose last error is EMPTY_FRAME. -/
def stErr : GifState := { initState with lastError := GIFError.EMPTY_FRAME }

/-- Witness for C5 at a session whose last error is EMPTY_FRAME. -/
theorem C5_sticky_error_witness :
    nextFrame stErr = (stErr.lastError, stErr) ∧
    ((parseHeader (resetFrameBuffer { stErr with dataPosition := 0, currentFrame := 0 })).1 =
        GIFError.SUCCESS →
      (reset stErr).lastError = GIFError.SUCCESS) ∧
    ((loadFromMemory stErr streamV).1 = GIFError.SUCCESS →
      (loadFromMemory stErr streamV).2.lastError = GIFError.SUCCESS) :=
  C5_sticky_error stErr streamV (by decide)

/-- C7: when the frame index has reached the total frame count (and no error
is pending), `nextFrame` with looping disabled returns EmptyFrame, records it
as the last error, and `isAnimationComplete` then reports true; with looping
enabled the same call runs the frame pipeline on the `reset` state, whose
frame index is 0 (the first frame). -/
theorem C7_exhausted (st : GifState)
    (hok : st.lastError = GIFError.SUCCESS) (hend : st.totalFrames ≤ st.currentFrame) :
    (st.loop = false →
      nextFrame st = (GIFError.EMPTY_FRAME, { st with lastError := GIFError.EMPTY_FRAME }) ∧
      isAnimationComplete { st with lastError := GIFError.EMPTY_FRAME } = true) ∧
    (st.loop = true →
      nextFrame st = nextFrameCore (reset st) ∧ (reset st).currentFrame = 0) := by
  constructor
  · intro hloop
    constructor
    · unfold nextFrame
      rw [if_neg (by simp [hok])]
      rw [if_neg (by simp [hloop])]
      rw [if_pos hend]
    · unfold isAnimationComplete
      simp [hloop, hend]
  · intro hloop
    constructor
    · unfold nextFrame
      rw [if_neg (by simp [hok])]
      rw [if_pos ⟨hend, by simp [hloop]⟩]
    · unfold reset
      rw [parseHeader_snd_currentFrame, resetFrameBuffer_currentFrame]

/-- A fresh session with looping disabled. -/
def stNoLoop : GifState := { initState with loop := false }

/-- Witness for C7 at fresh sessions (0 frames seen of 0 total), one with
looping off and one with looping on. -/
theorem C7_exhausted_witness :
    (nextFrame stNoLoop =
      (GIFError.EMPTY_FRAME, { stNoLoop with lastError := GIFError.EMPTY_FRAME }) ∧
     isAnimationComplete { stNoLoop with lastError := GIFError.EMPTY_FRAME } = true) ∧
    (nextFrame initState = nextFrameCore (reset initState) ∧
     (reset initState).currentFrame = 0) :=
  ⟨(C7_exhausted stNoLoop rfl (by decide)).1 rfl,
   (C7_exhausted initState rfl (by decide)).2 rfl⟩

/-- `parseHeader` on a readable, validly signed header whose decoded width or
height exceeds the configured bound returns FileTooWide. -/
theorem parseHeader_too_wide (st : GifState) (bytes : List Nat)
    (hsrc : srcBytes st = some bytes) (hlen : 13 ≤ bytes.length)
    (hsig : bytes.take 6 = sig89 ∨ bytes.take 6 = sig87)
    (hdim : maxWidth < bytes.getD 6 0 ||| (bytes.getD 7 0 <<< 8) ∨
            maxHeight < bytes.getD 8 0 ||| (bytes.getD 9 0 <<< 8)) :
    (parseHeader st).1 = GIFError.FILE_TOO_WIDE := by
  have hread : readData st 13 0 = some (bytes.take 13) := by
    simpa using readData_eq st bytes 13 0 hsrc (by omega)
  unfold parseHeader
  rw [hread]
  simp only [take_six_of_take_13]
  rw [if_neg (by rcases hsig with h | h <;> simp [h])]
  rw [if_pos (by
    simpa [getD_take_of_lt _ (by norm_num : (6 : Nat) < 13),
           getD_take_of_lt _ (by norm_num : (7 : Nat) < 13),
           getD_take_of_lt _ (by norm_num : (8 : Nat) < 13),
           getD_take_of_lt _ (by norm_num : (9 : Nat) < 13)] using hdim)]

/-- C9: loading a buffer whose signature is valid but whose little-endian
16-bit width exceeds 800 or height exceeds 600 fails with FileTooWide, on the
in-memory path and on the pull-reader path alike. -/
theorem C9_too_wide (st : GifState) (bytes : List Nat)
    (hr : st.reader = none) (hlen : 13 ≤ bytes.length)
    (hsig : bytes.take 6 = sig89 ∨ bytes.take 6 = sig87)
    (hdim : maxWidth < bytes.getD 6 0 ||| (bytes.getD 7 0 <<< 8) ∨
            maxHeight < bytes.getD 8 0 ||| (bytes.getD 9 0 <<< 8)) :
    (loadFromMemory st bytes).1 = GIFError.FILE_TOO_WIDE ∧
    (load st bytes).1 = GIFError.FILE_TOO_WIDE := by
  constructor
  · have hmem : loadFromMemory st bytes =
        parseHeader { (cleanup st) with data := some bytes, dataLength := bytes.length, dataPosition := 0 } := by
      unfold loadFromMemory
      rw [if_neg (by omega)]
    rw [hmem]
    refine parseHeader_too_wide _ bytes ?_ hlen hsig hdim
    unfold srcBytes cleanup resetState resetFrameState
    dsimp only
    rw [hr]
  · have hsrc2 : srcBytes { (cleanup st) with reader := some bytes } = some bytes := rfl
    have hread2 : readData { (cleanup st) with reader := some bytes } 13 0 = some (bytes.take 13) := by
      simpa using readData_eq _ bytes 13 0 hsrc2 (by omega)
    unfold load
    dsimp only
    rw [hread2]
    simp only [take_six_of_take_13]
    rw [if_neg (by rcases hsig with h | h <;> simp [h])]
    rw [if_pos (by
      simpa [getD_take_of_lt _ (by norm_num : (6 : Nat) < 13),
             getD_take_of_lt _ (by norm_num : (7 : Nat) < 13),
             getD_take_of_lt _ (by norm_num : (8 : Nat) < 13),
             getD_take_of_lt _ (by norm_num : (9 : Nat) < 13)] using hdim)]

/-- A valid-signature header declaring an 801-pixel-wide 1-pixel-high canvas. -/
def wideHeader : List Nat :=
  [0x47, 0x49, 0x46, 0x38, 0x39, 0x61, 0x21, 0x03, 1, 0, 0, 0, 0]

/-- Witness for C9 at a header declaring width 801. -/
theorem C9_too_wide_witness :
    (loadFromMemory initState wideHeader).1 = GIFError.FILE_TOO_WIDE ∧
    (load initState wideHeader).1 = GIFError.FILE_TOO_WIDE :=
  C9_too_wide initState wideHeader rfl (by decide) (Or.inl (by decide))
    (Or.inl (by decide))


/-!
Infrastructure for C6: the pre-scan over a serialized block list.
-/

theorem pos_lt_of_drop_cons (s : List Nat) (pos x : Nat) (rest : List Nat)
    (h : s.drop pos = x :: rest) : pos < s.length := by
  by_contra hc
  push_neg at hc
  rw [List.drop_eq_nil_of_le hc] at h
  simp at h

theorem drop_append_len (s : List Nat) (pos : Nat) (a b : List Nat)
    (h : s.drop pos = a ++ b) : s.drop (pos + a.length) = b := by
  have h2 := congrArg (List.drop a.length) h
  rw [List.drop_drop, List.drop_left] at h2
  exact h2

theorem readBytes_of_drop (s : List Nat) (pos : Nat) (pre post : List Nat)
    (h : s.drop pos = pre ++ post) (hpos : pos ≤ s.length) :
    readBytes s pre.length pos = some pre := by
  have hl := congrArg List.length h
  rw [List.length_drop, List.length_append] at hl
  unfold readBytes
  rw [if_pos (by omega), h, List.take_left]

theorem readByte_of_drop (s : List Nat) (pos x : Nat) (rest : List Nat)
    (h : s.drop pos = x :: rest) : readBytes s 1 pos = some [x] := by
  have hpos : pos < s.length := pos_lt_of_drop_cons s pos x rest h
  have h2 : s.drop pos = [x] ++ rest := by simpa using h
  simpa using readBytes_of_drop s pos [x] rest h2 (by omega)

theorem drop_one_cons (s : List Nat) (pos x : Nat) (rest : List Nat)
    (h : s.drop pos = x :: rest) : s.drop (pos + 1) = rest := by
  have h2 := drop_append_len s pos [x] rest (by simpa using h)
  simpa using h2

theorem chainBytes_nil : chainBytes [] = [0] := rfl

theorem chainBytes_cons (sub : List Nat) (tl : List (List Nat)) :
    chainBytes (sub :: tl) = sub.length :: (sub ++ chainBytes tl) := by
  unfold chainBytes
  rw [List.map_cons, List.flatten_cons]
  simp [List.append_assoc]

theorem length_chainBytes_ge (subs : List (List Nat)) :
    subs.length + 1 ≤ (chainBytes subs).length := by
  induction subs with
  | nil => simp [chainBytes_nil]
  | cons sub tl ih =>
    rw [chainBytes_cons]
    simp only [List.length_cons, List.length_append]
    omega

theorem blocksBytes_nil : blocksBytes [] = [] := rfl

theorem blocksBytes_cons (b : GifBlock) (tl : List GifBlock) :
    blocksBytes (b :: tl) = blockBytes b ++ blocksBytes tl := by
  unfold blocksBytes
  rw [List.map_cons, List.flatten_cons]

theorem one_le_blockBytes (b : GifBlock) : 1 ≤ (blockBytes b).length := by
  cases b <;> simp [blockBytes]

theorem length_blocksBytes_ge (blocks : List GifBlock) :
    blocks.length ≤ (blocksBytes blocks).length := by
  induction blocks with
  | nil => simp [blocksBytes_nil]
  | cons b tl ih =>
    rw [blocksBytes_cons]
    have := one_le_blockBytes b
    simp only [List.length_cons, List.length_append]
    omega

theorem numDesc_nil : numDesc [] = 0 := rfl

theorem numDesc_cons_ext (label : Nat) (subs : List (List Nat)) (tl : List GifBlock) :
    numDesc (.ext label subs :: tl) = numDesc tl := by
  simp [numDesc, List.filter_cons]

theorem numDesc_cons_gce (p d1 d2 t : Nat) (tl : List GifBlock) :
    numDesc (.gce p d1 d2 t :: tl) = numDesc tl := by
  simp [numDesc, List.filter_cons]

theorem numDesc_cons_desc (pl lct : List Nat) (mc : Nat) (subs : List (List Nat))
    (tl : List GifBlock) :
    numDesc (.desc pl lct mc subs :: tl) = numDesc tl + 1 := by
  simp [numDesc, List.filter_cons]

theorem sumDelays_nil : sumDelays [] = 0 := rfl

theorem sumDelays_cons_ext (label : Nat) (subs : List (List Nat)) (tl : List GifBlock) :
    sumDelays (.ext label subs :: tl) = sumDelays tl := by
  simp [sumDelays]

theorem sumDelays_cons_gce (p dlo dhi t : Nat) (tl : List GifBlock) :
    sumDelays (.gce p dlo dhi t :: tl) = 10 * max ((dlo <<< 8) ||| p) 2 + sumDelays tl := by
  simp [sumDelays]

theorem sumDelays_cons_desc (pl lct : List Nat) (mc : Nat) (subs : List (List Nat))
    (tl : List GifBlock) :
    sumDelays (.desc pl lct mc subs :: tl) = sumDelays tl := by
  simp [sumDelays]

/-- The inner sub-block skip of `countFrames`, run at the start of a
serialized chain, consumes exactly the chain. -/
theorem cfSkipSubLoop_chain (s : List Nat) (subs : List (List Nat)) :
    ∀ (fuel pos : Nat) (rest : List Nat), WfChain subs →
      s.drop pos = chainBytes subs ++ rest →
      subs.length + 1 ≤ fuel →
      cfSkipSubLoop s s.length fuel pos = pos + (chainBytes subs).length := by
  induction subs with
  | nil =>
    intro fuel pos rest hwf hdrop hfuel
    obtain ⟨f, rfl⟩ : ∃ f, fuel = f + 1 := ⟨fuel - 1, by omega⟩
    rw [chainBytes_nil] at hdrop ⊢
    have hcons : s.drop pos = 0 :: rest := by simpa using hdrop
    have hlt : pos < s.length := pos_lt_of_drop_cons s pos 0 rest hcons
    simp only [cfSkipSubLoop]
    rw [if_pos hlt, readByte_of_drop s pos 0 rest hcons]
    simp
  | cons sub tl ih =>
    intro fuel pos rest hwf hdrop hfuel
    obtain ⟨f, rfl⟩ : ∃ f, fuel = f + 1 := ⟨fuel - 1, by omega⟩
    rw [chainBytes_cons] at hdrop
    have hcons : s.drop pos = sub.length :: (sub ++ (chainBytes tl ++ rest)) := by
      simpa [List.append_assoc] using hdrop
    have hlt : pos < s.length := pos_lt_of_drop_cons _ _ _ _ hcons
    have hsub := hwf sub (by simp)
    simp only [cfSkipSubLoop]
    rw [if_pos hlt, readByte_of_drop s pos sub.length _ hcons]
    simp only [List.getD_cons_zero]
    rw [if_neg (by omega)]
    have hpre : s.drop pos = (sub.length :: sub) ++ (chainBytes tl ++ rest) := by
      simpa using hcons
    have hdrop2 : s.drop (pos + 1 + sub.length) = chainBytes tl ++ rest := by
      have h3 := drop_append_len s pos _ _ hpre
      simpa [List.length_cons, Nat.add_comm, Nat.add_assoc, Nat.add_left_comm] using h3
    have hwf2 : WfChain tl := fun x hx => hwf x (by simp [hx])
    rw [ih f (pos + 1 + sub.length) rest hwf2 hdrop2
      (by simp only [List.length_cons] at hfuel; omega)]
    rw [chainBytes_cons]
    simp only [List.length_cons, List.length_append]
    omega

/-- One outer `countFrames` iteration over a serialized plain extension. -/
theorem cfLoop_step_ext (s : List Nat) (f pos frames dur label : Nat)
    (subs : List (List Nat)) (rest : List Nat)
    (hlab : label ≠ 0xF9) (hwf : WfChain subs)
    (hdrop : s.drop pos = blockBytes (.ext label subs) ++ rest)
    (hrest : rest ≠ []) :
    cfLoop s s.length (s.length - 1) (f + 1) pos frames dur =
      cfLoop s s.length (s.length - 1) f (pos + (blockBytes (.ext label subs)).length)
        frames dur := by
  have hb : s.drop pos = 0x21 :: (label :: (chainBytes subs ++ rest)) := by
    simpa [blockBytes, List.append_assoc] using hdrop
  have hlen := congrArg List.length hb
  rw [List.length_drop] at hlen
  simp only [List.length_cons, List.length_append] at hlen
  have hrl : 1 ≤ rest.length := by
    cases rest
    · simp at hrest
    · simp
  have hcl := length_chainBytes_ge subs
  have hlt : pos < s.length - 1 := by omega
  have hb2 : s.drop (pos + 1) = label :: (chainBytes subs ++ rest) :=
    drop_one_cons s pos 0x21 _ hb
  have hb3 : s.drop (pos + 2) = chainBytes subs ++ rest :=
    drop_one_cons s (pos + 1) label _ hb2
  have hskip : cfSkipSub s s.length (pos + 2) = pos + 2 + (chainBytes subs).length := by
    unfold cfSkipSub
    exact cfSkipSubLoop_chain s subs (s.length + 1) (pos + 2) rest hwf hb3 (by omega)
  simp only [cfLoop]
  rw [if_pos hlt, readByte_of_drop s pos 0x21 _ hb]
  simp only [List.getD_cons_zero, reduceIte]
  rw [readByte_of_drop s (pos + 1) label _ hb2]
  simp only [List.getD_cons_zero]
  rw [if_neg hlab]
  dsimp only
  rw [hskip]
  have harg : pos + 2 + (chainBytes subs).length =
      pos + (blockBytes (GifBlock.ext label subs)).length := by
    simp only [blockBytes, List.length_cons, List.length_append]
    omega
  rw [harg]
  norm_num

/-- One outer `countFrames` iteration over a serialized Graphic Control
Extension: the duration accumulates `10 * max d 2` where `d` is assembled
from the packed byte (low half) and low delay byte (high half). -/
theorem cfLoop_step_gce (s : List Nat) (f pos frames dur packed dlo dhi tidx : Nat)
    (rest : List Nat) (hp : packed < 256) (hd : dlo < 256)
    (hdrop : s.drop pos = blockBytes (.gce packed dlo dhi tidx) ++ rest)
    (hrest : rest ≠ []) :
    cfLoop s s.length (s.length - 1) (f + 1) pos frames dur =
      cfLoop s s.length (s.length - 1) f (pos + 8) frames
        ((dur + (max ((dlo <<< 8) ||| packed) 2) * 10) % 2 ^ 32) := by
  have hb : s.drop pos =
      0x21 :: (0xF9 :: (4 :: (packed :: (dlo :: (dhi :: (tidx :: (0 :: rest))))))) := by
    simpa [blockBytes] using hdrop
  have hlen := congrArg List.length hb
  rw [List.length_drop] at hlen
  simp only [List.length_cons] at hlen
  have hrl : 1 ≤ rest.length := by
    cases rest
    · simp at hrest
    · simp
  have hlt : pos < s.length - 1 := by omega
  have hb2 : s.drop (pos + 1) = 0xF9 :: (4 :: (packed :: (dlo :: (dhi :: (tidx :: (0 :: rest)))))) :=
    drop_one_cons s pos 0x21 _ hb
  have hb3 : s.drop (pos + 2) = 4 :: (packed :: (dlo :: (dhi :: (tidx :: (0 :: rest))))) :=
    drop_one_cons s (pos + 1) 0xF9 _ hb2
  have hread5 : readBytes s 5 (pos + 2) = some [4, packed, dlo, dhi, tidx] := by
    have h5 : s.drop (pos + 2) = [4, packed, dlo, dhi, tidx] ++ (0 :: rest) := by
      simpa using hb3
    simpa using readBytes_of_drop s (pos + 2) [4, packed, dlo, dhi, tidx] (0 :: rest) h5
      (by omega)
  have hb7 : s.drop (pos + 7) = chainBytes [] ++ rest := by
    have h4 := drop_append_len s (pos + 2) [4, packed, dlo, dhi, tidx] (0 :: rest) (by
      simpa using hb3)
    rw [chainBytes_nil]
    simpa using h4
  have hskip : cfSkipSub s s.length (pos + 7) = pos + 8 := by
    unfold cfSkipSub
    have h6 := cfSkipSubLoop_chain s [] (s.length + 1) (pos + 7) rest (by
      intro x hx
      simp at hx) hb7 (by simp)
    simpa [chainBytes_nil] using h6
  have hmod : ((dlo <<< 8) ||| packed) % 2 ^ 16 = (dlo <<< 8) ||| packed := by
    refine Nat.mod_eq_of_lt (Nat.or_lt_two_pow ?_ ?_)
    · rw [Nat.shiftLeft_eq]
      norm_num
      omega
    · omega
  simp only [cfLoop]
  rw [if_pos hlt, readByte_of_drop s pos 0x21 _ hb]
  simp only [List.getD_cons_zero, reduceIte]
  rw [readByte_of_drop s (pos + 1) 0xF9 _ hb2]
  simp only [List.getD_cons_zero, reduceIte]
  rw [hread5]
  simp only [List.getD_cons_succ, List.getD_cons_zero, reduceIte]
  rw [hmod]
  norm_num
  rw [hskip]

/-- One outer `countFrames` iteration over a serialized Image Descriptor with
no local color table: the frame counter increments. -/
theorem cfLoop_step_desc (s : List Nat) (f pos frames dur minCode : Nat)
    (payload : List Nat) (subs : List (List Nat)) (rest : List Nat)
    (hp9 : payload.length = 9) (hmc : minCode &&& 0x80 = 0) (hwf : WfChain subs)
    (hdrop : s.drop pos = blockBytes (.desc payload [] minCode subs) ++ rest)
    (hrest : rest ≠ []) :
    cfLoop s s.length (s.length - 1) (f + 1) pos frames dur =
      cfLoop s s.length (s.length - 1) f
        (pos + (blockBytes (.desc payload [] minCode subs)).length)
        ((frames + 1) % 2 ^ 16) dur := by
  have hb : s.drop pos = 0x2C :: (payload ++ (minCode :: (chainBytes subs ++ rest))) := by
    simpa [blockBytes, List.append_assoc] using hdrop
  have hlen := congrArg List.length hb
  rw [List.length_drop] at hlen
  simp only [List.length_cons, List.length_append, hp9] at hlen
  have hrl : 1 ≤ rest.length := by
    cases rest
    · simp at hrest
    · simp
  have hcl := length_chainBytes_ge subs
  have hlt : pos < s.length - 1 := by omega
  have hb10 : s.drop (pos + 10) = minCode :: (chainBytes subs ++ rest) := by
    have h2 := drop_append_len s pos (0x2C :: payload) (minCode :: (chainBytes subs ++ rest))
      (by simpa using hb)
    rw [List.length_cons, hp9] at h2
    exact h2
  have hb11 : s.drop (pos + 10 + 1) = chainBytes subs ++ rest :=
    drop_one_cons s (pos + 10) minCode _ hb10
  have hskip : cfSkipSub s s.length (pos + 10 + 1) = pos + 10 + 1 + (chainBytes subs).length := by
    unfold cfSkipSub
    exact cfSkipSubLoop_chain s subs (s.length + 1) (pos + 10 + 1) rest hwf hb11 (by omega)
  simp only [cfLoop]
  rw [if_pos hlt, readByte_of_drop s pos 0x2C _ hb]
  simp only [List.getD_cons_zero, reduceIte]
  rw [readByte_of_drop s (pos + 10) minCode _ hb10]
  simp only [List.getD_cons_zero]
  rw [if_neg (by simp [hmc])]
  rw [hskip]
  have harg : pos + 10 + 1 + (chainBytes subs).length =
      pos + (blockBytes (GifBlock.desc payload [] minCode subs)).length := by
    simp only [blockBytes, List.length_cons, List.length_append, List.length_nil, hp9]
    omega
  rw [harg]

/-- The pre-scan outer loop consumes a serialized well-formed block list up to
the trailer, counting exactly the Image Descriptors and summing the per-GCE
delay contributions. -/
theorem cfLoop_blocks (s : List Nat) (blocks : List GifBlock) :
    ∀ (fuel pos frames dur : Nat) (rest : List Nat),
      (∀ b ∈ blocks, WfBlock b) →
      s.drop pos = blocksBytes blocks ++ 0x3B :: rest →
      frames < 2 ^ 16 → dur < 2 ^ 32 →
      blocks.length + 1 ≤ fuel →
      cfLoop s s.length (s.length - 1) fuel pos frames dur =
        ((frames + numDesc blocks) % 2 ^ 16, (dur + sumDelays blocks) % 2 ^ 32) := by
  induction blocks with
  | nil =>
    intro fuel pos frames dur rest hwf hdrop hf hd hfuel
    obtain ⟨f, rfl⟩ : ∃ f, fuel = f + 1 := ⟨fuel - 1, by omega⟩
    rw [blocksBytes_nil] at hdrop
    have hcons : s.drop pos = 0x3B :: rest := by simpa using hdrop
    have hlen := congrArg List.length hcons
    rw [List.length_drop] at hlen
    simp only [List.length_cons] at hlen
    simp only [numDesc_nil, sumDelays_nil, Nat.add_zero]
    rw [Nat.mod_eq_of_lt hf, Nat.mod_eq_of_lt hd]
    rcases rest with _ | ⟨r, rs⟩
    · have hnlt : ¬ pos < s.length - 1 := by
        simp only [List.length_nil] at hlen
        omega
      simp only [cfLoop]
      rw [if_neg hnlt]
    · have hlt : pos < s.length - 1 := by
        simp only [List.length_cons] at hlen
        omega
      simp only [cfLoop]
      rw [if_pos hlt, readByte_of_drop s pos 0x3B _ hcons]
      simp only [List.getD_cons_zero, reduceIte]
      norm_num
  | cons b tl ih =>
    intro fuel pos frames dur rest hwf hdrop hf hd hfuel
    obtain ⟨f, rfl⟩ : ∃ f, fuel = f + 1 := ⟨fuel - 1, by omega⟩
    rw [blocksBytes_cons, List.append_assoc] at hdrop
    have hfuel2 : tl.length + 1 ≤ f := by
      simp only [List.length_cons] at hfuel
      omega
    have hwtl : ∀ x ∈ tl, WfBlock x := fun x hx => hwf x (by simp [hx])
    have hwb : WfBlock b := hwf b (by simp)
    have hrest2 : blocksBytes tl ++ 0x3B :: rest ≠ [] := by simp
    cases b with
    | ext label subs =>
      obtain ⟨hlab, hwc⟩ := hwb
      rw [cfLoop_step_ext s f pos frames dur label subs _ hlab hwc hdrop hrest2]
      rw [ih f (pos + (blockBytes (.ext label subs)).length) frames dur rest hwtl
        (drop_append_len s pos _ _ hdrop) hf hd hfuel2]
      rw [numDesc_cons_ext, sumDelays_cons_ext]
    | gce packed dlo dhi tidx =>
      obtain ⟨hp, hdd, _, _⟩ := hwb
      rw [cfLoop_step_gce s f pos frames dur packed dlo dhi tidx _ hp hdd hdrop hrest2]
      have h8 : (blockBytes (GifBlock.gce packed dlo dhi tidx)).length = 8 := by
        simp [blockBytes]
      have hdrop8 : s.drop (pos + 8) = blocksBytes tl ++ 0x3B :: rest := by
        rw [← h8]
        exact drop_append_len s pos _ _ hdrop
      rw [ih f (pos + 8) frames _ rest hwtl hdrop8 hf (Nat.mod_lt _ (by norm_num)) hfuel2]
      rw [numDesc_cons_gce, sumDelays_cons_gce, Nat.mod_add_mod]
      have hcomm : dur + max ((dlo <<< 8) ||| packed) 2 * 10 + sumDelays tl =
          dur + (10 * max ((dlo <<< 8) ||| packed) 2 + sumDelays tl) := by ring
      rw [hcomm]
    | desc payload lct minCode subs =>
      obtain ⟨hp9, _, hlct, hmc, hwc⟩ := hwb
      subst hlct
      rw [cfLoop_step_desc s f pos frames dur minCode payload subs _ hp9 hmc hwc hdrop hrest2]
      rw [ih f (pos + (blockBytes (.desc payload [] minCode subs)).length)
        ((frames + 1) % 2 ^ 16) dur rest hwtl (drop_append_len s pos _ _ hdrop)
        (Nat.mod_lt _ (by norm_num)) hd hfuel2]
      rw [numDesc_cons_desc, sumDelays_cons_desc, Nat.mod_add_mod]
      have hcomm : frames + 1 + numDesc tl = frames + (numDesc tl + 1) := by ring
      rw [hcomm]

/-- `countFrames` on a state whose source holds serialized well-formed blocks
followed by the trailer at the current scan position. -/
theorem countFrames_eq (st : GifState) (s : List Nat) (blocks : List GifBlock)
    (hsrc : srcBytes st = some s) (hlen : st.dataLength = s.length)
    (hdrop : s.drop st.dataPosition = blocksBytes blocks ++ 0x3B :: [])
    (hwf : ∀ b ∈ blocks, WfBlock b) :
    countFrames st = { st with totalFrames := numDesc blocks % 2 ^ 16,
                               totalDuration := sumDelays blocks % 2 ^ 32,
                               dataPosition := 13 + st.globalColorTableSize * 3 } := by
  have hbb := length_blocksBytes_ge blocks
  have hlend := congrArg List.length hdrop
  rw [List.length_drop] at hlend
  simp only [List.length_append, List.length_cons, List.length_nil] at hlend
  have h1 : 1 ≤ s.length := by omega
  have hcf := cfLoop_blocks s blocks (s.length - 1 + 1) st.dataPosition 0 0 [] hwf
    hdrop (by norm_num) (by norm_num) (by omega)
  unfold countFrames
  rw [hsrc, hlen]
  simp only [Option.getD_some]
  rw [if_neg (by omega)]
  rw [hcf]
  simp only [Nat.zero_add]
theorem readData_srcBytes (st2 st : GifState) (len pos : Nat)
    (h : srcBytes st2 = srcBytes st) : readData st2 len pos = readData st len pos := by
  unfold readData
  rw [h]

theorem readData_of_drop (st : GifState) (s : List Nat) (pos : Nat) (pre post : List Nat)
    (hsrc : srcBytes st = some s) (h : s.drop pos = pre ++ post) (hpos : pos ≤ s.length) :
    readData st pre.length pos = some pre := by
  unfold readData
  rw [hsrc]
  exact readBytes_of_drop s pos pre post h hpos

/-- The global-color-table entry count implied by the header flags byte. -/
def gtSize (flags : Nat) : Nat :=
  if flags &&& 0x80 ≠ 0 then 2 ^ ((flags &&& 0x07) + 1) else 0

/-- `parseHeader` on a serialized stream of well-formed blocks: it succeeds,
and the pre-scan fills in the Image-Descriptor count and the delay sum. -/
theorem parseHeader_stream (st : GifState) (wlo whi hlo hhi flags bg asp : Nat)
    (gt : List Nat) (blocks : List GifBlock)
    (hsrc : srcBytes st = some (mkStream wlo whi hlo hhi flags bg asp gt blocks))
    (hdlen : st.dataLength = (mkStream wlo whi hlo hhi flags bg asp gt blocks).length)
    (hw : wlo ||| (whi <<< 8) ≤ maxWidth) (hh : hlo ||| (hhi <<< 8) ≤ maxHeight)
    (hgt : gt.length = 3 * gtSize flags)
    (hwf : ∀ b ∈ blocks, WfBlock b) :
    (parseHeader st).1 = GIFError.SUCCESS ∧
    (parseHeader st).2.totalFrames = numDesc blocks % 2 ^ 16 ∧
    (parseHeader st).2.totalDuration = sumDelays blocks % 2 ^ 32 := by
  have hassoc : mkStream wlo whi hlo hhi flags bg asp gt blocks =
      [71, 73, 70, 56, 57, 97, wlo, whi, hlo, hhi, flags, bg, asp] ++
        (gt ++ (blocksBytes blocks ++ [0x3B])) := by
    simp [mkStream, List.append_assoc]
  have hread13 : readData st 13 0 = some
      ([71, 73, 70, 56, 57, 97, wlo, whi, hlo, hhi, flags, bg, asp] : List Nat) := by
    have h := readData_of_drop st (mkStream wlo whi hlo hhi flags bg asp gt blocks) 0
      [71, 73, 70, 56, 57, 97, wlo, whi, hlo, hhi, flags, bg, asp]
      (gt ++ (blocksBytes blocks ++ [0x3B])) hsrc (by simpa using hassoc) (by omega)
    simpa using h
  have hd13 : (mkStream wlo whi hlo hhi flags bg asp gt blocks).drop 13 =
      gt ++ (blocksBytes blocks ++ [0x3B]) := by
    have h := drop_append_len (mkStream wlo whi hlo hhi flags bg asp gt blocks) 0
      [71, 73, 70, 56, 57, 97, wlo, whi, hlo, hhi, flags, bg, asp]
      (gt ++ (blocksBytes blocks ++ [0x3B])) (by simpa using hassoc)
    simpa using h
  unfold parseHeader
  rw [hread13]
  dsimp only
  rw [if_neg (fun hcon => hcon.1 rfl)]
  rw [if_neg (by push_neg; exact ⟨hw, hh⟩)]
  simp only [List.getD_cons_succ, List.getD_cons_zero]
  by_cases hfl : flags &&& 0x80 ≠ 0
  · rw [if_pos hfl]
    have hgt2 : gt.length = 3 * 2 ^ ((flags &&& 0x07) + 1) := by
      rw [hgt]
      unfold gtSize
      rw [if_pos hfl]
    have hreadgt : readData st (2 ^ ((flags &&& 0x07) + 1) * 3) 13 = some gt := by
      have h := readData_of_drop st (mkStream wlo whi hlo hhi flags bg asp gt blocks) 13
        gt (blocksBytes blocks ++ [0x3B]) hsrc hd13 (by
          have := congrArg List.length hassoc
          simp only [List.length_append, List.length_cons, List.length_nil] at this
          omega)
      rw [hgt2] at h
      rw [Nat.mul_comm] at h
      exact h
    rw [readData_srcBytes _ st _ _ rfl, hreadgt]
    dsimp only
    have hdgt : (mkStream wlo whi hlo hhi flags bg asp gt blocks).drop
        (13 + 2 ^ ((flags &&& 0x07) + 1) * 3) = blocksBytes blocks ++ [0x3B] := by
      have h := drop_append_len (mkStream wlo whi hlo hhi flags bg asp gt blocks) 13
        gt (blocksBytes blocks ++ [0x3B]) hd13
      rw [hgt2, Nat.mul_comm] at h
      exact h
    unfold finishHeader
    rw [countFrames_eq]
    · exact ⟨rfl, rfl, rfl⟩
    · exact mkStream wlo whi hlo hhi flags bg asp gt blocks
    · exact hsrc
    · exact hdlen
    · simpa using hdgt
    · exact hwf
  · rw [if_neg hfl]
    have hgt0 : gt = [] := by
      have : gt.length = 0 := by
        rw [hgt]
        unfold gtSize
        rw [if_neg hfl]
      exact List.length_eq_zero.mp this
    subst hgt0
    unfold finishHeader
    rw [countFrames_eq]
    · exact ⟨rfl, rfl, rfl⟩
    · exact mkStream wlo whi hlo hhi flags bg asp [] blocks
    · exact hsrc
    · exact hdlen
    · simpa using hd13
    · exact hwf

/-- The pull-reader `load` path leaves the frame count and total duration at
the zeroes set by `cleanup`: it performs no pre-scan. -/
theorem load_counters (st : GifState) (bytes : List Nat) :
    (load st bytes).2.totalFrames = 0 ∧ (load st bytes).2.totalDuration = 0 := by
  unfold load
  dsimp only
  split
  · exact ⟨rfl, rfl⟩
  · split
    · exact ⟨rfl, rfl⟩
    · split
      · exact ⟨rfl, rfl⟩
      · split
        · split
          · exact ⟨rfl, rfl⟩
          · exact ⟨rfl, rfl⟩
        · exact ⟨rfl, rfl⟩

/-- C6 (amended): a successful `loadFromMemory` of a serialized stream of
well-formed blocks (no local color tables) reports, via the single forward
pre-scan, exactly the number of Image Descriptors (as a 16-bit count) and the
sum of the per-GCE delay contributions (as a 32-bit total); the pull-reader
`load` performs no pre-scan and reports 0 frames and 0 ms. -/
theorem C6_amended (st0 : GifState) (wlo whi hlo hhi flags bg asp : Nat)
    (gt : List Nat) (blocks : List GifBlock)
    (hr : st0.reader = none)
    (hw : wlo ||| (whi <<< 8) ≤ maxWidth) (hh : hlo ||| (hhi <<< 8) ≤ maxHeight)
    (hgt : gt.length = 3 * gtSize flags)
    (hwf : ∀ b ∈ blocks, WfBlock b) :
    (loadFromMemory st0 (mkStream wlo whi hlo hhi flags bg asp gt blocks)).1 =
      GIFError.SUCCESS ∧
    getFrameCount (loadFromMemory st0 (mkStream wlo whi hlo hhi flags bg asp gt blocks)).2 =
      numDesc blocks % 2 ^ 16 ∧
    (loadFromMemory st0 (mkStream wlo whi hlo hhi flags bg asp gt blocks)).2.totalDuration =
      sumDelays blocks % 2 ^ 32 ∧
    getFrameCount (load st0 (mkStream wlo whi hlo hhi flags bg asp gt blocks)).2 = 0 ∧
    (load st0 (mkStream wlo whi hlo hhi flags bg asp gt blocks)).2.totalDuration = 0 := by
  have hlenS : ¬ (mkStream wlo whi hlo hhi flags bg asp gt blocks).length = 0 := by
    simp [mkStream]
  have hmem : loadFromMemory st0 (mkStream wlo whi hlo hhi flags bg asp gt blocks) =
      parseHeader { (cleanup st0) with data := some (mkStream wlo whi hlo hhi flags bg asp gt blocks), dataLength := (mkStream wlo whi hlo hhi flags bg asp gt blocks).length, dataPosition := 0 } := by
    unfold loadFromMemory
    rw [if_neg hlenS]
  have hsrc1 : srcBytes { (cleanup st0) with data := some (mkStream wlo whi hlo hhi flags bg asp gt blocks), dataLength := (mkStream wlo whi hlo hhi flags bg asp gt blocks).length, dataPosition := 0 } = some (mkStream wlo whi hlo hhi flags bg asp gt blocks) := by
    unfold srcBytes cleanup resetState resetFrameState
    dsimp only
    rw [hr]
  have hph := parseHeader_stream _ wlo whi hlo hhi flags bg asp gt blocks hsrc1 rfl
    hw hh hgt hwf
  have hlc := load_counters st0 (mkStream wlo whi hlo hhi flags bg asp gt blocks)
  rw [hmem]
  exact ⟨hph.1, hph.2.1, hph.2.2, hlc.1, hlc.2⟩

instance (subs : List (List Nat)) : Decidable (WfChain subs) := by
  unfold WfChain
  infer_instance

instance (b : GifBlock) : Decidable (WfBlock b) := by
  cases b <;> (unfold WfBlock; infer_instance)

/-- C6 counterexample: (i) a valid one-descriptor stream loaded through the
pull-reader path reports 0 frames; (ii) a one-descriptor stream whose local
color table contains a stray 0x2C byte is counted as 2 frames by the
in-memory pre-scan; (iii) a stream whose GCE encodes 26 centiseconds gets a
pre-scanned total duration of 66560 ms while the frame's parsed delay is
1024 ms, so the total is not the sum of the frames' delays. -/
theorem C6_counterexample :
    (load initState streamV).1 = GIFError.SUCCESS ∧
    numDesc [descV] = 1 ∧
    getFrameCount (load initState streamV).2 = 0 ∧
    (loadFromMemory initState streamLCT).1 = GIFError.SUCCESS ∧
    numDesc [GifBlock.desc [0, 0, 0, 0, 1, 0, 1, 0, 0x80] [0, 0, 0x2C, 0, 0, 0] 2 [[5]]] = 1 ∧
    getFrameCount (loadFromMemory initState streamLCT).2 = 2 ∧
    (loadFromMemory initState streamDur).1 = GIFError.SUCCESS ∧
    (loadFromMemory initState streamDur).2.totalDuration = 66560 ∧
    (parseFrame (loadFromMemory initState streamDur).2).1 = true ∧
    (parseFrame (loadFromMemory initState streamDur).2).2.frameDelay = 1024 := by
  decide

/-- Witness for C6 (amended) at the one-frame stream `streamV`. -/
theorem C6_amended_witness :
    (loadFromMemory initState (mkStream 2 0 2 0 0x80 0 0 gtest [descV])).1 =
      GIFError.SUCCESS ∧
    getFrameCount (loadFromMemory initState (mkStream 2 0 2 0 0x80 0 0 gtest [descV])).2 =
      numDesc [descV] % 2 ^ 16 ∧
    (loadFromMemory initState (mkStream 2 0 2 0 0x80 0 0 gtest [descV])).2.totalDuration =
      sumDelays [descV] % 2 ^ 32 ∧
    getFrameCount (load initState (mkStream 2 0 2 0 0x80 0 0 gtest [descV])).2 = 0 ∧
    (load initState (mkStream 2 0 2 0 0x80 0 0 gtest [descV])).2.totalDuration = 0 :=
  C6_amended initState 2 0 2 0 0x80 0 0 gtest [descV] rfl (by decide) (by decide)
    (by decide) (by decide)

end EGif
